import Mathlib

/-!
Shallow embedding of `.github/scripts/build_update_config.py` (MemoFlow update
config compiler).  JSON documents are modelled by the inductive type `JValue`;
Python dicts are association lists whose keys are unique after `dedupObj`
(mirroring how `json.loads` builds dicts: last value wins, first position kept).
The filesystem is a finite map from root-relative path strings to parsed JSON
values; a path that is absent models a missing file.  Fallible code returns
`Except String`, mirroring `ConfigError` propagation.
-/

set_option maxHeartbeats 1000000

/-- A JSON value as produced by Python's `json.loads`.  Floats are carried as
their decimal representation string (the claims only need that floats are a
distinct, non-int, non-str kind); booleans are a separate constructor, but note
that Python's `bool` is a subclass of `int`, which the embedding of
`isinstance(value, int)` checks must honour. -/
inductive JValue where
  | jnull : JValue
  | jbool : Bool → JValue
  | jint : Int → JValue
  | jfloat : String → JValue
  | jstr : String → JValue
  | jarr : List JValue → JValue
  | jobj : List (String × JValue) → JValue
  deriving Repr

/-- Association-list lookup, first match wins (dict keys are unique after
`dedupObj`, so this is Python dict lookup). -/
def jget {α : Type} : List (String × α) → String → Option α
  | [], _ => none
  | (k, v) :: rest, key => if k = key then some v else jget rest key

/-- `d.get(key, default)`. -/
def jgetD {α : Type} (o : List (String × α)) (key : String) (dflt : α) : α :=
  (jget o key).getD dflt

/-- `d[key] = v` on a dict: replace the (unique) existing binding in place,
else append. -/
def insertD {α : Type} : List (String × α) → String → α → List (String × α)
  | [], k, v => [(k, v)]
  | (k0, v0) :: rest, k, v =>
    if k0 = k then (k0, v) :: rest else (k0, v0) :: insertD rest k v

/-- `d.pop(key, None)`: drop the binding for `key`. -/
def popK {α : Type} (o : List (String × α)) (k : String) : List (String × α) :=
  o.filter (fun p => p.1 ≠ k)

/-- Rebuild a key-value list with dict semantics: successive assignment,
last value wins, first position kept (what `json.loads` does for duplicate
keys). -/
def dedupObj {α : Type} (kvs : List (String × α)) : List (String × α) :=
  kvs.foldl (fun acc p => insertD acc p.1 p.2) []

/-- `len(set(l))`: the number of distinct elements of `l`. -/
def pySetSize : List String → Nat
  | [] => 0
  | x :: xs => if x ∈ xs then pySetSize xs else pySetSize xs + 1

/-- A character stripped by Python's `str.strip()` (ASCII whitespace). -/
def pySpace (c : Char) : Bool :=
  c = ' ' || c = '\t' || c = '\n' || c = '\r' || c = '\x0b' || c = '\x0c'

/-- Python `str.strip()`: drop leading and trailing whitespace. -/
def pyStrip (s : String) : String :=
  ⟨((s.data.dropWhile pySpace).reverse.dropWhile pySpace).reverse⟩

/-- Python `str.lower()` (ASCII fragment). -/
def pyLower (s : String) : String :=
  ⟨s.data.map Char.toLower⟩

/-- Python `str.isdigit` (ASCII fragment): non-empty and all characters are
decimal digits. -/
def pyIsdigit (s : String) : Bool :=
  !s.data.isEmpty && s.data.all Char.isDigit

/-- Decimal digits of a natural number, fuelled (fuel `n + 1` suffices for
`n`).  Models the digit sequence of Python's `str(int)`. -/
def natDigitsAux : Nat → Nat → List Char
  | 0, _ => []
  | fuel + 1, n =>
    if n < 10 then [Nat.digitChar n]
    else natDigitsAux fuel (n / 10) ++ [Nat.digitChar (n % 10)]

/-- Python `str` applied to an `int`: decimal representation, with a leading
minus sign for negative numbers. -/
def pyIntStr : Int → String
  | .ofNat m => ⟨natDigitsAux (m + 1) m⟩
  | .negSucc m => ⟨'-' :: natDigitsAux (m + 2) (m + 1)⟩

/-- Python `repr` of a string: quote (single quotes, or double quotes when the
string contains a single quote but no double quote) and escape. -/
def pyReprStr (s : String) : String :=
  let sq : Char := Char.ofNat 39
  let dq : Char := Char.ofNat 34
  let q := if s.data.contains sq && !s.data.contains dq then dq else sq
  let esc := s.data.map (fun c =>
    if c = q || c = '\\' then ⟨['\\', c]⟩
    else if c = '\n' then "\\n"
    else if c = '\r' then "\\r"
    else if c = '\t' then "\\t"
    else (⟨[c]⟩ : String))
  (⟨[q]⟩ : String) ++ String.join esc ++ ⟨[q]⟩

mutual
/-- Python `repr` of a JSON value (as used by `f"{value!r}"`). -/
def pyRepr : JValue → String
  | .jnull => "None"
  | .jbool b => if b then "True" else "False"
  | .jint n => pyIntStr n
  | .jfloat r => r
  | .jstr s => pyReprStr s
  | .jarr xs => "[" ++ pyReprList xs ++ "]"
  | .jobj kvs => "\x7b" ++ pyReprObj kvs ++ "\x7d"

def pyReprList : List JValue → String
  | [] => ""
  | [x] => pyRepr x
  | x :: xs => pyRepr x ++ ", " ++ pyReprList xs

def pyReprObj : List (String × JValue) → String
  | [] => ""
  | [(k, v)] => pyReprStr k ++ ": " ++ pyRepr v
  | (k, v) :: kvs => pyReprStr k ++ ": " ++ pyRepr v ++ ", " ++ pyReprObj kvs
end

/-- Python `str` applied to a JSON value: identity on strings, `repr`
elsewhere. -/
def pyStr : JValue → String
  | .jstr s => s
  | v => pyRepr v

/-- Python truthiness `bool(x)` of a JSON value.  For floats (carried as their
decimal representation) only a zero value is falsy. -/
def pyTruthy : JValue → Bool
  | .jnull => false
  | .jbool b => b
  | .jint n => n ≠ 0
  | .jfloat r => !(r = "0.0" || r = "-0.0" || r = "0")
  | .jstr s => !s.data.isEmpty
  | .jarr xs => !xs.isEmpty
  | .jobj kvs => !kvs.isEmpty

mutual
/-- Normalize a parsed JSON tree to dict semantics: every object's key list is
deduplicated the way `json.loads` builds dicts. -/
def jnorm : JValue → JValue
  | .jnull => .jnull
  | .jbool b => .jbool b
  | .jint n => .jint n
  | .jfloat r => .jfloat r
  | .jstr s => .jstr s
  | .jarr xs => .jarr (jnormList xs)
  | .jobj kvs => .jobj (dedupObj (jnormKVs kvs))

def jnormList : List JValue → List JValue
  | [] => []
  | x :: xs => jnorm x :: jnormList xs

def jnormKVs : List (String × JValue) → List (String × JValue)
  | [] => []
  | (k, v) :: kvs => (k, jnorm v) :: jnormKVs kvs
end

/-- A Python dict of JSON values (an object after parsing). -/
abbrev JObj := List (String × JValue)

/-- The filesystem seen by the compiler: root-relative path strings mapped to
the parsed JSON content of the file; an absent path is a missing file.  (Files
holding syntactically invalid JSON are outside the model; every claim concerns
well-formed inputs or missing files.) -/
structure FS where
  files : List (String × JValue)

/-- Content of the file at `p`, if present. -/
def fsRead (fs : FS) (p : String) : Option JValue :=
  jget fs.files p

/-- `path.exists()`. -/
def fsExists (fs : FS) (p : String) : Bool :=
  (fsRead fs p).isSome

/-- Path of an announcement file: `announcements/{id}.json`. -/
def annPath (i : String) : String :=
  "announcements/" ++ i ++ ".json"

/-- `_read_json`: read the file and require a JSON object. -/
def _read_json (fs : FS) (p : String) : Except String JObj :=
  match fsRead fs p with
  | none => .error ("failed reading " ++ p)
  | some v =>
    match jnorm v with
    | .jobj kvs => .ok kvs
    | _ => .error ("json object required in " ++ p)

/-- `_read_json_list`: read the file and require a JSON array. -/
def _read_json_list (fs : FS) (p : String) : Except String (List JValue) :=
  match fsRead fs p with
  | none => .error ("failed reading " ++ p)
  | some v =>
    match jnorm v with
    | .jarr xs => .ok xs
    | _ => .error ("json array required in " ++ p)

/-- `_normalize_id`: integers (and booleans, since Python's `bool` is a
subclass of `int` and therefore passes `isinstance(value, int)`) stringify;
strings must trim to an all-digit form; everything else is a `ConfigError`. -/
def _normalize_id (value : JValue) (w : String) : Except String String :=
  match value with
  | .jint n => .ok (pyIntStr n)
  | .jbool b => .ok (if b then "True" else "False")
  | .jstr s =>
    let text := pyStrip s
    if pyIsdigit text then .ok text
    else .error ("invalid announcement id in " ++ w ++ ": " ++ pyRepr value)
  | _ => .error ("invalid announcement id in " ++ w ++ ": " ++ pyRepr value)

/-- Loop of `_load_announcements`, accumulating the announcements dict. -/
def loadAnnLoop (fs : FS) : List String → List (String × JObj) →
    Except String (List (String × JObj))
  | [], acc => .ok acc
  | i :: rest, acc =>
    let p := annPath i
    if fsExists fs p then
      match _read_json fs p with
      | .error e => .error e
      | .ok data =>
        match _normalize_id (jgetD data "id" .jnull) p with
        | .error e => .error e
        | .ok fid =>
          if fid = i then loadAnnLoop fs rest (insertD acc i data)
          else .error ("announcement id mismatch in " ++ p ++ ": expected " ++
            i ++ ", got " ++ fid)
    else .error ("missing announcement file: " ++ p)

/-- `_load_announcements`: read `announcements/{id}.json` for every id, checking
that each file's own `id` field normalizes to the filename-derived id. -/
def _load_announcements (fs : FS) (ids : List String) :
    Except String (List (String × JObj)) :=
  loadAnnLoop fs ids []

/-- `[str(x).strip() for x in xs if str(x).strip()]`. -/
def normStrList (xs : List JValue) : List String :=
  xs.filterMap (fun x =>
    let t := pyStrip (pyStr x)
    if t = "" then none else some t)

/-- The localized-contents loop of `_build_release_note`: for each language
key, trim and lowercase it, normalize the value to a list of non-empty trimmed
strings, and keep only non-empty results. -/
def localize (kvs : List (String × JValue)) : List (String × JValue) :=
  kvs.foldl (fun acc kv =>
    let lang := pyLower (pyStrip kv.1)
    if lang = "" then acc
    else
      let values : List String :=
        match kv.2 with
        | .jstr s => if pyStrip s = "" then [] else [pyStrip s]
        | .jarr xs => normStrList xs
        | _ => []
      if values.isEmpty then acc
      else insertD acc lang (.jarr (values.map JValue.jstr))) []

/-- Contents normalization inside `_build_release_note`: a mapping is
localized, a string becomes a zero/one element list, a list is trimmed and
filtered, anything else becomes the empty list. -/
def normalizeContents (c : JValue) : JValue :=
  match c with
  | .jobj kvs => .jobj (localize kvs)
  | .jstr s => .jarr (if pyStrip s = "" then [] else [.jstr (pyStrip s)])
  | .jarr xs => .jarr ((normStrList xs).map JValue.jstr)
  | _ => .jarr []

/-- Emptiness test `not normalized_contents` on the normalized contents (a
list or a mapping). -/
def ncEmpty : JValue → Bool
  | .jarr xs => xs.isEmpty
  | .jobj kvs => kvs.isEmpty
  | _ => true

/-- Per-item normalization inside `_build_release_note`: non-dict items are
skipped, and an item whose trimmed category is empty and whose normalized
contents are empty is dropped. -/
def normReleaseItem (item : JValue) : Option JValue :=
  match item with
  | .jobj kvs =>
    let category := pyStrip (pyStr (jgetD kvs "category" (.jstr "")))
    let nc := normalizeContents (jgetD kvs "contents" .jnull)
    if category = "" ∧ ncEmpty nc then none
    else some (.jobj [("category", .jstr category), ("contents", nc)])
  | _ => none

/-- `entry.get("items")` coerced to a list (non-lists are replaced by `[]`,
source lines 93-95). -/
def rawItems (entry : JObj) : List JValue :=
  match jgetD entry "items" .jnull with
  | .jarr xs => xs
  | _ => []

/-- The `normalized_items` list built by the item loop of
`_build_release_note`. -/
def normalizedItemsOf (entry : JObj) : List JValue :=
  (rawItems entry).filterMap normReleaseItem

/-- The trimmed `version` string of a release-note entry. -/
def versionOf (entry : JObj) : String :=
  pyStrip (pyStr (jgetD entry "version" (.jstr "")))

/-- `_build_release_note`: normalize the announcement's release-note shape and
return `none` when the trimmed version is empty and no normalized item
remains. -/
def _build_release_note (entry : JObj) : Option JValue :=
  let version := versionOf entry
  let dateLabel := pyStrip (pyStr (jgetD entry "date" (.jstr "")))
  let normalizedItems := normalizedItemsOf entry
  if version = "" ∧ normalizedItems.isEmpty then none
  else some (.jobj [("version", .jstr version), ("date", .jstr dateLabel),
    ("items", .jarr normalizedItems)])

/-- The `announcement_ids` / `latest_announcement_id` validation of
`compile_update_config` (source lines 199-214). -/
def validateAnnouncementIds (manifest : JObj) :
    Except String (List String × String) :=
  match jgetD manifest "announcement_ids" .jnull with
  | .jarr xs =>
    if xs.isEmpty then .error "manifest.announcement_ids must be a non-empty array"
    else
      match xs.mapM (fun v => _normalize_id v "manifest.announcement_ids") with
      | .error e => .error e
      | .ok ids =>
        if pySetSize ids ≠ ids.length then
          .error "manifest.announcement_ids contains duplicates"
        else
          match _normalize_id (jgetD manifest "latest_announcement_id" .jnull)
              "manifest.latest_announcement_id" with
          | .error e => .error e
          | .ok latest =>
            if latest ∈ ids then .ok (ids, latest)
            else .error ("manifest.latest_announcement_id=" ++ latest ++
              " is not in announcement_ids")
  | _ => .error "manifest.announcement_ids must be a non-empty array"

/-- `str(manifest.get("donors_file", "donors.json")).strip()`. -/
def donorsFileOf (manifest : JObj) : String :=
  pyStrip (pyStr (jgetD manifest "donors_file" (.jstr "donors.json")))

/-- Donor loading step of `compile_update_config` (source lines 218-225): an
empty resolved name skips loading; an existing file must parse as an array; a
missing file is an error unless the name is the literal default. -/
def loadDonors (fs : FS) (manifest : JObj) : Except String (List JValue) :=
  let df := donorsFileOf manifest
  if df = "" then .ok []
  else if fsExists fs df then _read_json_list fs df
  else if df = "donors.json" then .ok []
  else .error ("manifest.donors_file not found: " ++ df)

/-- `announcements[latest_announcement_id]` (the key is always present when
reached: the loaded dict has one entry per id and `latest` is one of the
ids). -/
def activeOf (anns : List (String × JObj)) (latest : String) : JObj :=
  (jget anns latest).getD []

/-- The `merged["announcement"]` object (source lines 240-246). -/
def buildAnnouncement (latest : String) (active : JObj) : JValue :=
  .jobj [("id", .jstr latest),
    ("title", .jstr (pyStrip (pyStr (jgetD active "title" (.jstr ""))))),
    ("show_when_up_to_date",
      .jbool (pyTruthy (jgetD active "show_when_up_to_date" (.jbool false)))),
    ("contents", jgetD active "contents" (.jobj [])),
    ("new_donor_ids", jgetD active "new_donor_ids" (.jarr []))]

/-- Release-note assembly loop of `compile_update_config` (source lines
228-232): one pass over the declared ids, keeping the non-`None` notes. -/
def releaseNotesOf (ids : List String) (anns : List (String × JObj)) :
    List JValue :=
  ids.filterMap (fun i => _build_release_note (activeOf anns i))

/-- The merged-document assembly (source lines 234-248): copy the manifest,
pop the four internal keys, and set the three output keys. -/
def assembleMerged (manifest : JObj) (latest : String) (active : JObj)
    (donors : List JValue) (notes : List JValue) : JObj :=
  let m := popK (popK (popK (popK manifest "announcement_ids")
    "latest_announcement_id") "donors_file") "announcement_tag_index"
  insertD (insertD (insertD m "announcement" (buildAnnouncement latest active))
    "donors" (.jarr donors)) "release_notes" (.jarr notes)

/-- The validation summary returned alongside the merged document. -/
structure Summary where
  announcement_ids : List String
  latest_announcement_id : String
  release_notes_count : Nat
  donors_count : Nat
  deriving Repr

/-- `compile_update_config`: the full validate-and-merge pipeline over the
modelled filesystem. -/
def compile_update_config (fs : FS) : Except String (JObj × Summary) :=
  if fsExists fs "manifest.json" then
    match _read_json fs "manifest.json" with
    | .error e => .error e
    | .ok manifest =>
      match validateAnnouncementIds manifest with
      | .error e => .error e
      | .ok (ids, latest) =>
        match _load_announcements fs ids with
        | .error e => .error e
        | .ok anns =>
          match loadDonors fs manifest with
          | .error e => .error e
          | .ok donors =>
            let notes := releaseNotesOf ids anns
            .ok (assembleMerged manifest latest (activeOf anns latest) donors notes,
              { announcement_ids := ids, latest_announcement_id := latest,
                release_notes_count := notes.length,
                donors_count := donors.length })
  else .error "manifest file not found: manifest.json"

/-- `value.strip()` followed by the non-emptiness test, as used by
`set_nonempty` and the tag-defaulting conditions of `_apply_overrides`. -/
def setNonempty (target : JObj) (key value : String) : JObj :=
  let text := pyStrip value
  if text ≠ "" then insertD target key (.jstr text) else target

/-- Apply `f` to the platform dict `name` inside `version_info`, skipping
platforms that are absent or not objects (Python mutates the same dict object
`get_platform` returned; replacing the binding in place is equivalent). -/
def updPlatform (vi : JObj) (name : String) (f : JObj → JObj) : JObj :=
  match jget vi name with
  | some (.jobj p) => insertD vi name (.jobj (f p))
  | _ => vi

/-- The sequence of in-place mutations `_apply_overrides` performs on the
`version_info` dict, in source order: the three `url` patches, the three
explicit `latest_version` patches, then the three tag-defaulting patches
(android, windows, ios). -/
def overridesVi (vi0 : JObj) (tag_version android_url ios_url
    windows_url android_version ios_version windows_version : String) : JObj :=
    let vi1 := updPlatform vi0 "android" (fun p => setNonempty p "url" android_url)
    let vi2 := updPlatform vi1 "ios" (fun p => setNonempty p "url" ios_url)
    let vi3 := updPlatform vi2 "windows" (fun p => setNonempty p "url" windows_url)
    let vi4 := updPlatform vi3 "android"
      (fun p => setNonempty p "latest_version" android_version)
    let vi5 := updPlatform vi4 "ios"
      (fun p => setNonempty p "latest_version" ios_version)
    let vi6 := updPlatform vi5 "windows"
      (fun p => setNonempty p "latest_version" windows_version)
    let t := pyStrip tag_version
    let vi7 :=
      if t ≠ "" ∧ pyStrip android_url ≠ "" ∧ pyStrip android_version = "" then
        updPlatform vi6 "android"
          (fun p => insertD p "latest_version" (.jstr t))
      else vi6
    let vi8 :=
      if t ≠ "" ∧ pyStrip windows_url ≠ "" ∧ pyStrip windows_version = "" then
        updPlatform vi7 "windows"
          (fun p => insertD p "latest_version" (.jstr t))
      else vi7
    let vi9 :=
      if t ≠ "" ∧ pyStrip ios_url ≠ "" ∧ pyStrip ios_version = "" then
        updPlatform vi8 "ios"
          (fun p => insertD p "latest_version" (.jstr t))
      else vi8
    vi9

/-- `_apply_overrides`: patch per-platform `url` / `latest_version` from
non-empty trimmed override strings, then default `latest_version` to the
trimmed tag version for platforms given a URL override but no explicit version
override.  A no-op when `version_info` is absent or not an object (Python
mutates the dict `merged["version_info"]` refers to; re-binding the key in
place is the pure equivalent). -/
def _apply_overrides (merged : JObj) (tag_version android_url ios_url
    windows_url android_version ios_version windows_version : String) : JObj :=
  match jget merged "version_info" with
  | some (.jobj vi0) =>
    insertD merged "version_info" (.jobj (overridesVi vi0 tag_version
      android_url ios_url windows_url android_version ios_version
      windows_version))
  | _ => merged

/-- Read `version_info.<name>.<key>` out of a merged document. -/
def platformField (m : JObj) (name key : String) : Option JValue :=
  match jget m "version_info" with
  | some (.jobj vi) =>
    match jget vi name with
    | some (.jobj p) => jget p key
    | _ => none
  | _ => none

/-! ## Basic lemmas about the dict model -/

theorem jget_insertD_self {α : Type} (o : List (String × α)) (k : String) (v : α) :
    jget (insertD o k v) k = some v := by
  induction o with
  | nil => simp [insertD, jget]
  | cons p rest ih =>
    obtain ⟨k0, v0⟩ := p
    by_cases h : k0 = k
    · simp [insertD, h, jget]
    · simp [insertD, h, jget, ih]

theorem jget_insertD_ne {α : Type} (o : List (String × α)) (k key : String) (v : α)
    (h : key ≠ k) : jget (insertD o k v) key = jget o key := by
  have hk : ¬ k = key := fun hh => h hh.symm
  induction o with
  | nil => simp [insertD, jget, hk]
  | cons p rest ih =>
    obtain ⟨k0, v0⟩ := p
    by_cases h0 : k0 = k
    · subst h0
      simp [insertD, jget, hk]
    · simp [insertD, h0, jget, ih]

theorem jget_popK_self {α : Type} (o : List (String × α)) (k : String) :
    jget (popK o k) k = none := by
  induction o with
  | nil => simp [popK, jget]
  | cons p rest ih =>
    obtain ⟨k0, v0⟩ := p
    by_cases h : k0 = k
    · simpa [popK, h] using ih
    · simp only [popK, List.filter] at ih ⊢
      simp only [ne_eq, decide_not] at ih
      simp [h, jget, ih]

theorem jget_popK_ne {α : Type} (o : List (String × α)) (k key : String)
    (h : key ≠ k) : jget (popK o k) key = jget o key := by
  have hk : ¬ k = key := fun hh => h hh.symm
  induction o with
  | nil => simp [popK, jget]
  | cons p rest ih =>
    obtain ⟨k0, v0⟩ := p
    by_cases h0 : k0 = k
    · subst h0
      simp only [popK, List.filter] at ih ⊢
      simp only [ne_eq, decide_not] at ih
      simp [jget, hk, ih]
    · simp only [popK, List.filter] at ih ⊢
      simp only [ne_eq, decide_not] at ih
      simp only [ne_eq, h0, not_false_eq_true, decide_not]
      by_cases h1 : k0 = key <;> simp [jget, h1, ih, h0]

theorem mem_insertD {α : Type} (o : List (String × α)) (k : String) (v : α)
    (p : String × α) (h : p ∈ insertD o k v) : p ∈ o ∨ p = (k, v) := by
  induction o with
  | nil => simpa [insertD] using h
  | cons q rest ih =>
    obtain ⟨k0, v0⟩ := q
    by_cases h0 : k0 = k
    · subst h0
      simp only [insertD, if_pos rfl] at h
      rcases List.mem_cons.mp h with h1 | h1
      · exact Or.inr (by simpa using h1)
      · exact Or.inl (List.mem_cons_of_mem _ h1)
    · simp only [insertD, if_neg h0] at h
      rcases List.mem_cons.mp h with h1 | h1
      · exact Or.inl (by simp [h1])
      · rcases ih h1 with h2 | h2
        · exact Or.inl (List.mem_cons_of_mem _ h2)
        · exact Or.inr h2

theorem filter_insertD {α : Type} (o : List (String × α)) (k : String) (v : α)
    (p : String → Bool) (hk : p k = false) :
    (insertD o k v).filter (fun q => p q.1) = o.filter (fun q => p q.1) := by
  induction o with
  | nil => simp [insertD, List.filter, hk]
  | cons q rest ih =>
    obtain ⟨k0, v0⟩ := q
    by_cases h0 : k0 = k
    · subst h0
      simp [insertD, List.filter, hk]
    · simp only [insertD, if_neg h0, List.filter]
      cases p k0 <;> simp [ih]

theorem filter_popK {α : Type} (o : List (String × α)) (k : String)
    (p : String → Bool) (hk : p k = false) :
    (popK o k).filter (fun q => p q.1) = o.filter (fun q => p q.1) := by
  unfold popK
  rw [List.filter_filter]
  apply List.filter_congr
  intro a _
  by_cases hp : p a.1
  · have hne : a.1 ≠ k := fun he => by rw [he] at hp; rw [hk] at hp; exact Bool.noConfusion hp
    simp [hp, hne]
  · simp only [Bool.eq_false_iff, ne_eq, not_not] at hp
    simp [hp]

/-! ## `len(set(...))` -/

theorem pySetSize_le (l : List String) : pySetSize l ≤ l.length := by
  induction l with
  | nil => simp [pySetSize]
  | cons x xs ih =>
    by_cases h : x ∈ xs <;> simp [pySetSize, h] <;> omega

theorem pySetSize_eq_iff_nodup (l : List String) :
    pySetSize l = l.length ↔ l.Nodup := by
  induction l with
  | nil => simp [pySetSize]
  | cons x xs ih =>
    by_cases h : x ∈ xs
    · have hle := pySetSize_le xs
      simp only [pySetSize, if_pos h, List.length_cons, List.nodup_cons]
      constructor
      · intro he; omega
      · intro he; exact absurd h he.1
    · simp only [pySetSize, if_neg h, List.length_cons, List.nodup_cons]
      constructor
      · intro he
        exact ⟨h, ih.mp (by omega)⟩
      · intro he
        have := ih.mpr he.2
        omega

/-! ## Decimal representations are digit strings -/

theorem digitChar_isDigit : ∀ m : Nat, m < 10 → (Nat.digitChar m).isDigit = true := by
  decide

theorem natDigitsAux_all_digit :
    ∀ fuel n : Nat, (natDigitsAux fuel n).all Char.isDigit = true := by
  intro fuel
  induction fuel with
  | zero => intro n; simp [natDigitsAux]
  | succ f ih =>
    intro n
    by_cases h : n < 10
    · simp [natDigitsAux, h, digitChar_isDigit n h]
    · have h10 : n % 10 < 10 := Nat.mod_lt _ (by omega)
      simp [natDigitsAux, h, List.all_append, ih (n / 10), digitChar_isDigit _ h10]

theorem natDigitsAux_ne_nil (fuel n : Nat) (h : fuel ≠ 0) :
    natDigitsAux fuel n ≠ [] := by
  cases fuel with
  | zero => exact absurd rfl h
  | succ f =>
    by_cases hn : n < 10 <;> simp [natDigitsAux, hn]

theorem pyIsdigit_pyIntStr (n : Int) : pyIsdigit (pyIntStr n) = true ↔ 0 ≤ n := by
  cases n with
  | ofNat m =>
    simp only [pyIntStr, pyIsdigit]
    constructor
    · intro _; exact Int.ofNat_nonneg m
    · intro _
      have h1 := natDigitsAux_ne_nil (m + 1) m (by omega)
      have h2 := natDigitsAux_all_digit (m + 1) m
      simp_all [List.isEmpty_iff]
  | negSucc m =>
    simp only [pyIntStr, pyIsdigit]
    constructor
    · intro h
      simp [List.all_cons] at h
    · intro h
      exact absurd h (by simp)

/-! ## Stage lemmas for `compile_update_config` -/

theorem fsExists_of_read_ok (fs : FS) (p : String) (obj : JObj)
    (h : _read_json fs p = .ok obj) : fsExists fs p = true := by
  unfold _read_json at h
  cases hr : fsRead fs p with
  | none => rw [hr] at h; exact Except.noConfusion h
  | some v => simp [fsExists, hr]

theorem compile_eq_of_stages (fs : FS) (manifest : JObj) (ids : List String)
    (latest : String) (anns : List (String × JObj)) (donors : List JValue)
    (h0 : fsExists fs "manifest.json" = true)
    (h1 : _read_json fs "manifest.json" = .ok manifest)
    (h2 : validateAnnouncementIds manifest = .ok (ids, latest))
    (h3 : _load_announcements fs ids = .ok anns)
    (h4 : loadDonors fs manifest = .ok donors) :
    compile_update_config fs =
      .ok (assembleMerged manifest latest (activeOf anns latest) donors
          (releaseNotesOf ids anns),
        { announcement_ids := ids, latest_announcement_id := latest,
          release_notes_count := (releaseNotesOf ids anns).length,
          donors_count := donors.length }) := by
  unfold compile_update_config
  rw [h0]
  simp only [if_true]
  rw [h1]; dsimp only
  rw [h2]; dsimp only
  rw [h3]; dsimp only
  rw [h4]

theorem compile_ok_inv (fs : FS) (m : JObj) (s : Summary)
    (h : compile_update_config fs = .ok (m, s)) :
    ∃ manifest ids latest anns donors,
      fsExists fs "manifest.json" = true ∧
      _read_json fs "manifest.json" = .ok manifest ∧
      validateAnnouncementIds manifest = .ok (ids, latest) ∧
      _load_announcements fs ids = .ok anns ∧
      loadDonors fs manifest = .ok donors ∧
      m = assembleMerged manifest latest (activeOf anns latest) donors
        (releaseNotesOf ids anns) ∧
      s = { announcement_ids := ids, latest_announcement_id := latest,
            release_notes_count := (releaseNotesOf ids anns).length,
            donors_count := donors.length } := by
  unfold compile_update_config at h
  by_cases h0 : fsExists fs "manifest.json" = true
  · rw [h0] at h
    simp only [if_true] at h
    cases h1 : _read_json fs "manifest.json" with
    | error e => rw [h1] at h; exact Except.noConfusion h
    | ok manifest =>
      rw [h1] at h; dsimp only at h
      cases h2 : validateAnnouncementIds manifest with
      | error e => rw [h2] at h; exact Except.noConfusion h
      | ok pair =>
        obtain ⟨ids, latest⟩ := pair
        rw [h2] at h; dsimp only at h
        cases h3 : _load_announcements fs ids with
        | error e => rw [h3] at h; exact Except.noConfusion h
        | ok anns =>
          rw [h3] at h; dsimp only at h
          cases h4 : loadDonors fs manifest with
          | error e => rw [h4] at h; exact Except.noConfusion h
          | ok donors =>
            rw [h4] at h; dsimp only at h
            simp only [Except.ok.injEq, Prod.mk.injEq] at h
            exact ⟨manifest, ids, latest, anns, donors, h0, rfl, h2, h3, h4,
              h.1.symm, h.2.symm⟩
  · simp only [Bool.not_eq_true] at h0
    rw [h0] at h
    simp only [Bool.false_eq_true, if_false] at h
    exact Except.noConfusion h

theorem validate_ok_inv (manifest : JObj) (ids : List String) (latest : String)
    (h : validateAnnouncementIds manifest = .ok (ids, latest)) :
    ∃ xs, jgetD manifest "announcement_ids" .jnull = .jarr xs ∧
      xs.isEmpty = false ∧
      xs.mapM (fun v => _normalize_id v "manifest.announcement_ids") = .ok ids ∧
      pySetSize ids = ids.length ∧
      _normalize_id (jgetD manifest "latest_announcement_id" .jnull)
        "manifest.latest_announcement_id" = .ok latest ∧
      latest ∈ ids := by
  unfold validateAnnouncementIds at h
  cases hv : jgetD manifest "announcement_ids" .jnull with
  | jnull => rw [hv] at h; exact Except.noConfusion h
  | jbool b => rw [hv] at h; exact Except.noConfusion h
  | jint n => rw [hv] at h; exact Except.noConfusion h
  | jfloat r => rw [hv] at h; exact Except.noConfusion h
  | jstr s => rw [hv] at h; exact Except.noConfusion h
  | jobj kvs => rw [hv] at h; exact Except.noConfusion h
  | jarr xs =>
    rw [hv] at h; dsimp only at h
    cases hxe : xs.isEmpty with
    | true => rw [hxe] at h; simp at h
    | false =>
      rw [hxe] at h
      simp only [Bool.false_eq_true, if_false] at h
      cases hm : xs.mapM (fun v => _normalize_id v "manifest.announcement_ids") with
      | error e => rw [hm] at h; exact Except.noConfusion h
      | ok ids0 =>
        rw [hm] at h; dsimp only at h
        by_cases hdup : pySetSize ids0 = ids0.length
        · rw [if_neg (fun hc => hc hdup)] at h
          cases hl : _normalize_id (jgetD manifest "latest_announcement_id" .jnull)
              "manifest.latest_announcement_id" with
          | error e => rw [hl] at h; exact Except.noConfusion h
          | ok latest0 =>
            rw [hl] at h; dsimp only at h
            by_cases hmem : latest0 ∈ ids0
            · rw [if_pos hmem] at h
              simp only [Except.ok.injEq, Prod.mk.injEq] at h
              obtain ⟨hi, hl2⟩ := h
              subst hi; subst hl2
              exact ⟨xs, rfl, hxe, hm, hdup, rfl, hmem⟩
            · rw [if_neg hmem] at h; exact Except.noConfusion h
        · rw [if_pos hdup] at h; exact Except.noConfusion h

theorem compile_error_of_validate (fs : FS) (manifest : JObj) (e : String)
    (h0 : fsExists fs "manifest.json" = true)
    (h1 : _read_json fs "manifest.json" = .ok manifest)
    (h2 : validateAnnouncementIds manifest = .error e) :
    compile_update_config fs = .error e := by
  unfold compile_update_config
  rw [h0]
  simp only [if_true]
  rw [h1]; dsimp only
  rw [h2]

theorem compile_error_of_donors (fs : FS) (manifest : JObj) (ids : List String)
    (latest : String) (anns : List (String × JObj)) (e : String)
    (h0 : fsExists fs "manifest.json" = true)
    (h1 : _read_json fs "manifest.json" = .ok manifest)
    (h2 : validateAnnouncementIds manifest = .ok (ids, latest))
    (h3 : _load_announcements fs ids = .ok anns)
    (h4 : loadDonors fs manifest = .error e) :
    compile_update_config fs = .error e := by
  unfold compile_update_config
  rw [h0]
  simp only [if_true]
  rw [h1]; dsimp only
  rw [h2]; dsimp only
  rw [h3]; dsimp only
  rw [h4]

/-! ## Lookups into the assembled merged document -/

theorem jget_assembleMerged_release_notes (manifest : JObj) (latest : String)
    (active : JObj) (donors notes : List JValue) :
    jget (assembleMerged manifest latest active donors notes) "release_notes" =
      some (.jarr notes) := by
  unfold assembleMerged
  exact jget_insertD_self _ _ _

theorem jget_assembleMerged_donors (manifest : JObj) (latest : String)
    (active : JObj) (donors notes : List JValue) :
    jget (assembleMerged manifest latest active donors notes) "donors" =
      some (.jarr donors) := by
  unfold assembleMerged
  rw [jget_insertD_ne _ _ _ _ (by decide)]
  exact jget_insertD_self _ _ _

theorem jget_assembleMerged_announcement (manifest : JObj) (latest : String)
    (active : JObj) (donors notes : List JValue) :
    jget (assembleMerged manifest latest active donors notes) "announcement" =
      some (buildAnnouncement latest active) := by
  unfold assembleMerged
  rw [jget_insertD_ne _ _ _ _ (by decide), jget_insertD_ne _ _ _ _ (by decide)]
  exact jget_insertD_self _ _ _

theorem jget_assembleMerged_internal (manifest : JObj) (latest : String)
    (active : JObj) (donors notes : List JValue) (k : String)
    (hmem : k = "announcement_ids" ∨ k = "latest_announcement_id" ∨
      k = "donors_file" ∨ k = "announcement_tag_index") :
    jget (assembleMerged manifest latest active donors notes) k = none := by
  unfold assembleMerged
  have hk1 : k ≠ "release_notes" := by rcases hmem with rfl | rfl | rfl | rfl <;> decide
  have hk2 : k ≠ "donors" := by rcases hmem with rfl | rfl | rfl | rfl <;> decide
  have hk3 : k ≠ "announcement" := by rcases hmem with rfl | rfl | rfl | rfl <;> decide
  rw [jget_insertD_ne _ _ _ _ hk1, jget_insertD_ne _ _ _ _ hk2,
    jget_insertD_ne _ _ _ _ hk3]
  rcases hmem with rfl | rfl | rfl | rfl
  · rw [jget_popK_ne _ _ _ (by decide), jget_popK_ne _ _ _ (by decide),
      jget_popK_ne _ _ _ (by decide)]
    exact jget_popK_self _ _
  · rw [jget_popK_ne _ _ _ (by decide), jget_popK_ne _ _ _ (by decide)]
    exact jget_popK_self _ _
  · rw [jget_popK_ne _ _ _ (by decide)]
    exact jget_popK_self _ _
  · exact jget_popK_self _ _

theorem filter_assembleMerged (manifest : JObj) (latest : String) (active : JObj)
    (donors notes : List JValue) (p : String → Bool)
    (h1 : p "announcement_ids" = false) (h2 : p "latest_announcement_id" = false)
    (h3 : p "donors_file" = false) (h4 : p "announcement_tag_index" = false)
    (h5 : p "announcement" = false) (h6 : p "donors" = false)
    (h7 : p "release_notes" = false) :
    (assembleMerged manifest latest active donors notes).filter (fun q => p q.1) =
      manifest.filter (fun q => p q.1) := by
  unfold assembleMerged
  rw [filter_insertD _ _ _ _ h7, filter_insertD _ _ _ _ h6,
    filter_insertD _ _ _ _ h5, filter_popK _ _ _ h4, filter_popK _ _ _ h3,
    filter_popK _ _ _ h2, filter_popK _ _ _ h1]

/-! ## Lemmas about `_load_announcements` -/

theorem loadAnnLoop_ok_prop (fs : FS) :
    ∀ (ids : List String) (acc anns : List (String × JObj)),
      loadAnnLoop fs ids acc = .ok anns →
      (∀ p ∈ acc, _normalize_id (jgetD p.2 "id" .jnull) (annPath p.1) = .ok p.1) →
      ∀ p ∈ anns, _normalize_id (jgetD p.2 "id" .jnull) (annPath p.1) = .ok p.1 := by
  intro ids
  induction ids with
  | nil =>
    intro acc anns h hacc
    unfold loadAnnLoop at h
    simp only [Except.ok.injEq] at h
    subst h
    exact hacc
  | cons i rest ih =>
    intro acc anns h hacc
    unfold loadAnnLoop at h
    dsimp only at h
    by_cases he : fsExists fs (annPath i) = true
    · rw [he] at h
      simp only [if_true] at h
      cases hr : _read_json fs (annPath i) with
      | error e => rw [hr] at h; exact Except.noConfusion h
      | ok data =>
        rw [hr] at h; dsimp only at h
        cases hn : _normalize_id (jgetD data "id" .jnull) (annPath i) with
        | error e => rw [hn] at h; exact Except.noConfusion h
        | ok fid =>
          rw [hn] at h; dsimp only at h
          by_cases hf : fid = i
          · rw [if_pos hf] at h
            refine ih _ _ h ?_
            intro p hp
            rcases mem_insertD _ _ _ _ hp with hp2 | hp2
            · exact hacc p hp2
            · subst hp2
              rw [← hf] at hn ⊢
              exact hn
          · rw [if_neg hf] at h; exact Except.noConfusion h
    · simp only [Bool.not_eq_true] at he
      rw [he] at h
      simp at h

theorem loadAnnLoop_error_of_mismatch (fs : FS) :
    ∀ (ids : List String) (acc : List (String × JObj)) (i : String) (obj : JObj)
      (fid : String),
      i ∈ ids →
      _read_json fs (annPath i) = .ok obj →
      _normalize_id (jgetD obj "id" .jnull) (annPath i) = .ok fid →
      fid ≠ i →
      ∃ e, loadAnnLoop fs ids acc = .error e := by
  intro ids
  induction ids with
  | nil =>
    intro acc i obj fid hi
    exact absurd hi (List.not_mem_nil _)
  | cons j rest ih =>
    intro acc i obj fid hi hr hn hne
    unfold loadAnnLoop
    dsimp only
    by_cases he : fsExists fs (annPath j) = true
    · rw [he]
      simp only [if_true]
      cases hr2 : _read_json fs (annPath j) with
      | error e => exact ⟨e, rfl⟩
      | ok data =>
        dsimp only
        cases hn2 : _normalize_id (jgetD data "id" .jnull) (annPath j) with
        | error e => exact ⟨e, rfl⟩
        | ok fid2 =>
          dsimp only
          by_cases hf : fid2 = j
          · rw [if_pos hf]
            rcases List.mem_cons.mp hi with hij | hi2
            · subst hij
              rw [hr] at hr2
              injection hr2 with hdata
              subst hdata
              rw [hn] at hn2
              injection hn2 with hfid
              exact absurd (hfid ▸ hf) hne
            · exact ih _ i obj fid hi2 hr hn hne
          · rw [if_neg hf]
            exact ⟨_, rfl⟩
    · simp only [Bool.not_eq_true] at he
      rw [he]
      simp only [Bool.false_eq_true, if_false]
      exact ⟨_, rfl⟩

/-! ## Lemmas about override application -/

theorem jget_updPlatform_same (vi : JObj) (n : String) (f : JObj → JObj) :
    jget (updPlatform vi n f) n =
      match jget vi n with
      | some (.jobj p) => some (.jobj (f p))
      | o => o := by
  unfold updPlatform
  cases h : jget vi n with
  | none => simp [h]
  | some v => cases v <;> simp [h, jget_insertD_self]

theorem jget_updPlatform_ne (vi : JObj) (n : String) (f : JObj → JObj)
    (n' : String) (h : n' ≠ n) :
    jget (updPlatform vi n f) n' = jget vi n' := by
  unfold updPlatform
  cases hv : jget vi n with
  | none => rfl
  | some v =>
    cases v with
    | jobj p => exact jget_insertD_ne _ _ _ _ h
    | jnull => rfl
    | jbool b => rfl
    | jint m => rfl
    | jfloat r => rfl
    | jstr s => rfl
    | jarr xs => rfl

theorem jget_ite_updPlatform_ne (c : Prop) [Decidable c] (vi : JObj) (n : String)
    (f : JObj → JObj) (n' : String) (h : n' ≠ n) :
    jget (if c then updPlatform vi n f else vi) n' = jget vi n' := by
  by_cases hc : c
  · rw [if_pos hc]; exact jget_updPlatform_ne _ _ _ _ h
  · rw [if_neg hc]

theorem jget_overridesVi_android (vi0 pk : JObj) (tag au iu wu av iv wv : String)
    (hpk : jget vi0 "android" = some (.jobj pk)) :
    jget (overridesVi vi0 tag au iu wu av iv wv) "android" =
      some (.jobj
        (if pyStrip tag ≠ "" ∧ pyStrip au ≠ "" ∧ pyStrip av = "" then
          insertD (setNonempty (setNonempty pk "url" au) "latest_version" av)
            "latest_version" (.jstr (pyStrip tag))
        else setNonempty (setNonempty pk "url" au) "latest_version" av)) := by
  unfold overridesVi
  dsimp only
  rw [jget_ite_updPlatform_ne _ _ _ _ _ (by decide),
    jget_ite_updPlatform_ne _ _ _ _ _ (by decide)]
  by_cases hc : pyStrip tag ≠ "" ∧ pyStrip au ≠ "" ∧ pyStrip av = ""
  · rw [if_pos hc, if_pos hc, jget_updPlatform_same,
      jget_updPlatform_ne _ _ _ _ (by decide), jget_updPlatform_ne _ _ _ _ (by decide),
      jget_updPlatform_same,
      jget_updPlatform_ne _ _ _ _ (by decide), jget_updPlatform_ne _ _ _ _ (by decide),
      jget_updPlatform_same, hpk]
  · rw [if_neg hc, if_neg hc,
      jget_updPlatform_ne _ _ _ _ (by decide), jget_updPlatform_ne _ _ _ _ (by decide),
      jget_updPlatform_same,
      jget_updPlatform_ne _ _ _ _ (by decide), jget_updPlatform_ne _ _ _ _ (by decide),
      jget_updPlatform_same, hpk]

theorem jget_overridesVi_windows (vi0 pk : JObj) (tag au iu wu av iv wv : String)
    (hpk : jget vi0 "windows" = some (.jobj pk)) :
    jget (overridesVi vi0 tag au iu wu av iv wv) "windows" =
      some (.jobj
        (if pyStrip tag ≠ "" ∧ pyStrip wu ≠ "" ∧ pyStrip wv = "" then
          insertD (setNonempty (setNonempty pk "url" wu) "latest_version" wv)
            "latest_version" (.jstr (pyStrip tag))
        else setNonempty (setNonempty pk "url" wu) "latest_version" wv)) := by
  unfold overridesVi
  dsimp only
  rw [jget_ite_updPlatform_ne _ _ _ _ _ (by decide)]
  by_cases hc : pyStrip tag ≠ "" ∧ pyStrip wu ≠ "" ∧ pyStrip wv = ""
  · rw [if_pos hc, if_pos hc, jget_updPlatform_same,
      jget_ite_updPlatform_ne _ _ _ _ _ (by decide),
      jget_updPlatform_same,
      jget_updPlatform_ne _ _ _ _ (by decide), jget_updPlatform_ne _ _ _ _ (by decide),
      jget_updPlatform_same,
      jget_updPlatform_ne _ _ _ _ (by decide), jget_updPlatform_ne _ _ _ _ (by decide),
      hpk]
  · rw [if_neg hc, if_neg hc,
      jget_ite_updPlatform_ne _ _ _ _ _ (by decide),
      jget_updPlatform_same,
      jget_updPlatform_ne _ _ _ _ (by decide), jget_updPlatform_ne _ _ _ _ (by decide),
      jget_updPlatform_same,
      jget_updPlatform_ne _ _ _ _ (by decide), jget_updPlatform_ne _ _ _ _ (by decide),
      hpk]

theorem jget_overridesVi_ios (vi0 pk : JObj) (tag au iu wu av iv wv : String)
    (hpk : jget vi0 "ios" = some (.jobj pk)) :
    jget (overridesVi vi0 tag au iu wu av iv wv) "ios" =
      some (.jobj
        (if pyStrip tag ≠ "" ∧ pyStrip iu ≠ "" ∧ pyStrip iv = "" then
          insertD (setNonempty (setNonempty pk "url" iu) "latest_version" iv)
            "latest_version" (.jstr (pyStrip tag))
        else setNonempty (setNonempty pk "url" iu) "latest_version" iv)) := by
  unfold overridesVi
  dsimp only
  by_cases hc : pyStrip tag ≠ "" ∧ pyStrip iu ≠ "" ∧ pyStrip iv = ""
  · rw [if_pos hc, if_pos hc, jget_updPlatform_same,
      jget_ite_updPlatform_ne _ _ _ _ _ (by decide),
      jget_ite_updPlatform_ne _ _ _ _ _ (by decide),
      jget_updPlatform_ne _ _ _ _ (by decide),
      jget_updPlatform_same,
      jget_updPlatform_ne _ _ _ _ (by decide),
      jget_updPlatform_ne _ _ _ _ (by decide),
      jget_updPlatform_same,
      jget_updPlatform_ne _ _ _ _ (by decide),
      hpk]
  · rw [if_neg hc, if_neg hc,
      jget_ite_updPlatform_ne _ _ _ _ _ (by decide),
      jget_ite_updPlatform_ne _ _ _ _ _ (by decide),
      jget_updPlatform_ne _ _ _ _ (by decide),
      jget_updPlatform_same,
      jget_updPlatform_ne _ _ _ _ (by decide),
      jget_updPlatform_ne _ _ _ _ (by decide),
      jget_updPlatform_same,
      jget_updPlatform_ne _ _ _ _ (by decide),
      hpk]

/-! ## Concrete fixtures -/

/-- `announcements/1.json` of the running example: carries a release note. -/
def exAnn1 : JObj := [("id", .jint 1), ("version", .jstr "1.0"), ("items", .jarr [])]

/-- `announcements/2.json` of the running example: no version, no items. -/
def exAnn2 : JObj :=
  [("id", .jint 2), ("title", .jstr "Hi"), ("show_when_up_to_date", .jbool true)]

/-- The example manifest (parsed object). -/
def exManifestObj : JObj :=
  [("schema_version", .jint 2), ("notice_enabled", .jbool true),
   ("version_info", .jobj [("android",
     .jobj [("url", .jstr "https://old"), ("latest_version", .jstr "0.9")])]),
   ("donors_file", .jstr "donors.json"),
   ("announcement_ids", .jarr [.jint 1, .jint 2]),
   ("latest_announcement_id", .jint 2),
   ("announcement_tag_index", .jobj [])]

/-- Example input tree: manifest plus two announcement files, no donors file. -/
def exFS : FS :=
  ⟨[("manifest.json", .jobj exManifestObj),
    ("announcements/1.json", .jobj exAnn1),
    ("announcements/2.json", .jobj exAnn2)]⟩

/-- The loaded announcements dict of the example. -/
def exAnns : List (String × JObj) := [("1", exAnn1), ("2", exAnn2)]

/-- The merged document the example compiles to. -/
def exMerged : JObj :=
  [("schema_version", .jint 2),
   ("notice_enabled", .jbool true),
   ("version_info", .jobj [("android",
     .jobj [("url", .jstr "https://old"), ("latest_version", .jstr "0.9")])]),
   ("announcement", .jobj [("id", .jstr "2"), ("title", .jstr "Hi"),
     ("show_when_up_to_date", .jbool true), ("contents", .jobj []),
     ("new_donor_ids", .jarr [])]),
   ("donors", .jarr []),
   ("release_notes", .jarr [.jobj [("version", .jstr "1.0"),
     ("date", .jstr ""), ("items", .jarr [])]])]

/-- The summary the example compiles to. -/
def exSummary : Summary :=
  { announcement_ids := ["1", "2"], latest_announcement_id := "2",
    release_notes_count := 1, donors_count := 0 }

/-- A manifest whose `donors_file` trims to the empty string. -/
def exManifest4Obj : JObj :=
  [("donors_file", .jstr "  "),
   ("announcement_ids", .jarr [.jint 1]),
   ("latest_announcement_id", .jint 1)]

/-- Input tree for the empty-`donors_file` edge case. -/
def exFS4 : FS :=
  ⟨[("manifest.json", .jobj exManifest4Obj),
    ("announcements/1.json", .jobj [("id", .jint 1)])]⟩

/-- The loaded announcements dict of the empty-`donors_file` example. -/
def exAnns4 : List (String × JObj) := [("1", [("id", .jint 1)])]

/-! ## Claims -/

/-- C2 counterexample: `_normalize_id` accepts the integer `-3` and returns
`"-3"`, which is not a digit-only string, and accepts the boolean `true`
(Python's `bool` passes `isinstance(value, int)`) returning `"True"` — so it
neither rejects everything that is not an integer or digit-string, nor returns
only digit-only strings. -/
theorem c2_normalize_id_counterexample :
    _normalize_id (.jint (-3)) "manifest.announcement_ids" = .ok "-3" ∧
    pyIsdigit "-3" = false ∧
    _normalize_id (.jbool true) "manifest.announcement_ids" = .ok "True" ∧
    pyIsdigit "True" = false := by
  exact ⟨rfl, rfl, rfl, rfl⟩

/-- C2 (amended): `_normalize_id` succeeds exactly when the value is an
integer, a boolean (Python's `bool` is a subclass of `int`), or a string whose
trimmed form is non-empty and all digits; a string input always yields a
digit-only string, while an integer yields its decimal representation, which
is digit-only exactly when the integer is nonnegative. -/
theorem c2_normalize_id_spec (v : JValue) (w : String) :
    ((∃ s, _normalize_id v w = .ok s) ↔
      ((∃ n, v = .jint n) ∨ (∃ b, v = .jbool b) ∨
        (∃ s0, v = .jstr s0 ∧ pyIsdigit (pyStrip s0) = true))) ∧
    (∀ s0 s, v = .jstr s0 → _normalize_id v w = .ok s → pyIsdigit s = true) ∧
    (∀ n s, v = .jint n → _normalize_id v w = .ok s →
      (pyIsdigit s = true ↔ 0 ≤ n)) := by
  refine ⟨?_, ?_, ?_⟩
  · cases v with
    | jnull => simp [_normalize_id]
    | jbool b => simp [_normalize_id]
    | jint n => simp [_normalize_id]
    | jfloat r => simp [_normalize_id]
    | jarr xs => simp [_normalize_id]
    | jobj kvs => simp [_normalize_id]
    | jstr s =>
      by_cases hd : pyIsdigit (pyStrip s) = true
      · simp [_normalize_id, hd]
      · simp [_normalize_id, hd]
  · intro s0 s hv h
    subst hv
    unfold _normalize_id at h
    dsimp only at h
    by_cases hd : pyIsdigit (pyStrip s0) = true
    · rw [if_pos hd] at h
      injection h with hs
      subst hs
      exact hd
    · rw [if_neg hd] at h
      exact Except.noConfusion h
  · intro n s hv h
    subst hv
    unfold _normalize_id at h
    injection h with hs
    subst hs
    exact pyIsdigit_pyIntStr n

/-- C2 witness for the amended claim: the digit string `" 42 "` is accepted
and yields the digit-only `"42"`. -/
theorem c2_normalize_id_spec_witness :
    (∃ s, _normalize_id (.jstr " 42 ") "manifest.announcement_ids" = .ok s) ∧
    pyIsdigit "42" = true := by
  refine ⟨((c2_normalize_id_spec (.jstr " 42 ") "manifest.announcement_ids").1).mpr
    (Or.inr (Or.inr ⟨" 42 ", rfl, rfl⟩)), ?_⟩
  exact (c2_normalize_id_spec (.jstr " 42 ")
    "manifest.announcement_ids").2.1 " 42 " "42" rfl rfl

/-- C6: whenever some declared id's announcement file reads as an object whose
own `id` field normalizes to a different string than the filename-derived id,
`_load_announcements` fails; and on success every loaded announcement's
normalized internal id equals its list id. -/
theorem c6_announcement_id_match (fs : FS) (ids : List String) (i : String)
    (obj : JObj) (fid : String)
    (hi : i ∈ ids)
    (hr : _read_json fs (annPath i) = .ok obj)
    (hn : _normalize_id (jgetD obj "id" .jnull) (annPath i) = .ok fid)
    (hne : fid ≠ i) :
    (∃ e, _load_announcements fs ids = .error e) ∧
    (∀ fs2 ids2 anns, _load_announcements fs2 ids2 = .ok anns →
      ∀ p ∈ anns, _normalize_id (jgetD p.2 "id" .jnull) (annPath p.1) = .ok p.1) := by
  constructor
  · exact loadAnnLoop_error_of_mismatch fs ids [] i obj fid hi hr hn hne
  · intro fs2 ids2 anns h
    exact loadAnnLoop_ok_prop fs2 ids2 [] anns h
      (fun p hp => absurd hp (List.not_mem_nil p))

/-- C6 witness: a filesystem whose `announcements/1.json` carries `id: 2`
makes loading fail, and the successful example load pairs every id
correctly. -/
theorem c6_announcement_id_match_witness :
    (∃ e, _load_announcements
      ⟨[("announcements/1.json", .jobj [("id", .jint 2)])]⟩ ["1"] = .error e) ∧
    (∀ fs2 ids2 anns, _load_announcements fs2 ids2 = .ok anns →
      ∀ p ∈ anns, _normalize_id (jgetD p.2 "id" .jnull) (annPath p.1) = .ok p.1) :=
  c6_announcement_id_match ⟨[("announcements/1.json", .jobj [("id", .jint 2)])]⟩
    ["1"] "1" [("id", .jint 2)] "2" (by decide) rfl rfl (by decide)

/-- C7: compilation fails when the normalized `announcement_ids` contain a
duplicate, and when `announcement_ids` is missing, not a list, or empty. -/
theorem c7_duplicate_ids_fail (fs : FS) (manifest : JObj)
    (h0 : fsExists fs "manifest.json" = true)
    (h1 : _read_json fs "manifest.json" = .ok manifest) :
    ((∀ xs, jgetD manifest "announcement_ids" .jnull = .jarr xs → xs = []) →
      ∃ e, compile_update_config fs = .error e) ∧
    (∀ xs ids, jgetD manifest "announcement_ids" .jnull = .jarr xs →
      xs.mapM (fun v => _normalize_id v "manifest.announcement_ids") = .ok ids →
      ¬ ids.Nodup →
      ∃ e, compile_update_config fs = .error e) := by
  constructor
  · intro hempty
    have hval : ∃ e, validateAnnouncementIds manifest = .error e := by
      unfold validateAnnouncementIds
      cases hv : jgetD manifest "announcement_ids" .jnull with
      | jnull => exact ⟨_, rfl⟩
      | jbool b => exact ⟨_, rfl⟩
      | jint n => exact ⟨_, rfl⟩
      | jfloat r => exact ⟨_, rfl⟩
      | jstr s => exact ⟨_, rfl⟩
      | jobj kvs => exact ⟨_, rfl⟩
      | jarr xs =>
        have hxs := hempty xs hv
        subst hxs
        exact ⟨_, rfl⟩
    obtain ⟨e, he⟩ := hval
    exact ⟨e, compile_error_of_validate fs manifest e h0 h1 he⟩
  · intro xs ids hv hm hnd
    have hsz : pySetSize ids ≠ ids.length :=
      fun hc => hnd ((pySetSize_eq_iff_nodup ids).mp hc)
    have hxe : xs.isEmpty = false := by
      cases xs with
      | nil =>
        exfalso
        apply hnd
        have h' : (Except.ok [] : Except String (List String)) = .ok ids := hm
        injection h' with h''
        rw [← h'']
        exact List.nodup_nil
      | cons y ys => rfl
    have hval : validateAnnouncementIds manifest =
        .error "manifest.announcement_ids contains duplicates" := by
      unfold validateAnnouncementIds
      rw [hv]
      dsimp only
      rw [hxe]
      simp only [Bool.false_eq_true, if_false]
      rw [hm]
      dsimp only
      rw [if_pos hsz]
    exact ⟨_, compile_error_of_validate fs manifest _ h0 h1 hval⟩

/-- C7 witness: a manifest declaring `announcement_ids = [1, "1"]` (a
duplicate after normalization) fails to compile, as does one whose
`announcement_ids` is the empty array. -/
theorem c7_duplicate_ids_fail_witness :
    (∃ e, compile_update_config
      ⟨[("manifest.json", .jobj [("announcement_ids", .jarr [])])]⟩ = .error e) ∧
    (∃ e, compile_update_config
      ⟨[("manifest.json",
        .jobj [("announcement_ids", .jarr [.jint 1, .jstr "1"])])]⟩ = .error e) := by
  constructor
  · exact (c7_duplicate_ids_fail
      ⟨[("manifest.json", .jobj [("announcement_ids", .jarr [])])]⟩
      [("announcement_ids", .jarr [])] rfl rfl).1
      (by intro xs hxs; injection hxs with h; exact h.symm)
  · exact (c7_duplicate_ids_fail
      ⟨[("manifest.json", .jobj [("announcement_ids", .jarr [.jint 1, .jstr "1"])])]⟩
      [("announcement_ids", .jarr [.jint 1, .jstr "1"])] rfl rfl).2
      [.jint 1, .jstr "1"] ["1", "1"] rfl rfl (by decide)

/-- C8: once the manifest has passed the `announcement_ids` checks and the
latest id normalizes, validation succeeds exactly when the normalized
`latest_announcement_id` appears in the normalized id sequence, and
compilation fails outright when it does not. -/
theorem c8_latest_membership (fs : FS) (manifest : JObj) (xs : List JValue)
    (ids : List String) (latest : String)
    (h0 : fsExists fs "manifest.json" = true)
    (h1 : _read_json fs "manifest.json" = .ok manifest)
    (hv : jgetD manifest "announcement_ids" .jnull = .jarr xs)
    (hxe : xs.isEmpty = false)
    (hm : xs.mapM (fun v => _normalize_id v "manifest.announcement_ids") = .ok ids)
    (hdup : pySetSize ids = ids.length)
    (hl : _normalize_id (jgetD manifest "latest_announcement_id" .jnull)
      "manifest.latest_announcement_id" = .ok latest) :
    (validateAnnouncementIds manifest = .ok (ids, latest) ↔ latest ∈ ids) ∧
    (latest ∉ ids → ∃ e, compile_update_config fs = .error e) := by
  have hred : validateAnnouncementIds manifest =
      if latest ∈ ids then .ok (ids, latest)
      else .error ("manifest.latest_announcement_id=" ++ latest ++
        " is not in announcement_ids") := by
    unfold validateAnnouncementIds
    rw [hv]
    dsimp only
    rw [hxe]
    simp only [Bool.false_eq_true, if_false]
    rw [hm]
    dsimp only
    rw [if_neg (fun hc => hc hdup)]
    rw [hl]
  constructor
  · constructor
    · intro hok
      by_contra hmem
      rw [hred, if_neg hmem] at hok
      exact Except.noConfusion hok
    · intro hmem
      rw [hred, if_pos hmem]
  · intro hmem
    exact ⟨_, compile_error_of_validate fs manifest
      ("manifest.latest_announcement_id=" ++ latest ++ " is not in announcement_ids")
      h0 h1 (by rw [hred, if_neg hmem])⟩

/-- C8 witness: in the example, `latest = "2"` is among `["1", "2"]` and
validation succeeds; replacing the latest id with `3` makes compilation
fail. -/
theorem c8_latest_membership_witness :
    (validateAnnouncementIds exManifestObj = .ok (["1", "2"], "2") ↔
      "2" ∈ ["1", "2"]) ∧
    (∃ e, compile_update_config
      ⟨[("manifest.json", .jobj [("announcement_ids", .jarr [.jint 1, .jint 2]),
        ("latest_announcement_id", .jint 3)])]⟩ = .error e) := by
  constructor
  · exact (c8_latest_membership exFS exManifestObj [.jint 1, .jint 2] ["1", "2"]
      "2" rfl rfl rfl rfl rfl rfl rfl).1
  · exact (c8_latest_membership
      ⟨[("manifest.json", .jobj [("announcement_ids", .jarr [.jint 1, .jint 2]),
        ("latest_announcement_id", .jint 3)])]⟩
      [("announcement_ids", .jarr [.jint 1, .jint 2]),
        ("latest_announcement_id", .jint 3)]
      [.jint 1, .jint 2] ["1", "2"] "3" rfl rfl rfl rfl rfl rfl rfl).2 (by decide)

/-- C10: when the manifest's `donors_file` value stringifies and trims to the
empty string, donor loading is skipped entirely and compilation succeeds (all
other inputs being valid) with `donors` equal to the empty list. -/
theorem c10_empty_donors_file_skips (fs : FS) (manifest : JObj)
    (ids : List String) (latest : String) (anns : List (String × JObj))
    (h0 : fsExists fs "manifest.json" = true)
    (h1 : _read_json fs "manifest.json" = .ok manifest)
    (h2 : validateAnnouncementIds manifest = .ok (ids, latest))
    (h3 : _load_announcements fs ids = .ok anns)
    (hdf : donorsFileOf manifest = "") :
    ∃ m s, compile_update_config fs = .ok (m, s) ∧
      jget m "donors" = some (.jarr []) ∧ s.donors_count = 0 := by
  have h4 : loadDonors fs manifest = .ok [] := by
    unfold loadDonors
    dsimp only
    rw [hdf]
    rw [if_pos rfl]
  exact ⟨_, _, compile_eq_of_stages fs manifest ids latest anns [] h0 h1 h2 h3 h4,
    jget_assembleMerged_donors _ _ _ _ _, rfl⟩

/-- C10 witness: the tree with `donors_file: "  "` (trims empty) and no such
file compiles successfully with an empty donor list. -/
theorem c10_empty_donors_file_skips_witness :
    ∃ m s, compile_update_config exFS4 = .ok (m, s) ∧
      jget m "donors" = some (.jarr []) ∧ s.donors_count = 0 :=
  c10_empty_donors_file_skips exFS4 exManifest4Obj ["1"] "1" exAnns4
    rfl rfl rfl rfl rfl

/-- The four manifest-internal keys stripped from the merged document. -/
def internalKeys : List String :=
  ["announcement_ids", "latest_announcement_id", "donors_file",
   "announcement_tag_index"]

/-- The three keys the compiler injects into the merged document. -/
def outputKeys : List String := ["announcement", "donors", "release_notes"]

/-- C1: on any successful compilation the merged `release_notes` is exactly
the in-declared-order `filterMap` of `_build_release_note` over the normalized
`announcement_ids`; the builder keeps an announcement iff its trimmed version
string is non-empty or at least one normalized item remains; and an item whose
trimmed category is empty and whose normalized contents are empty is dropped
by the item loop. -/
theorem c1_release_notes_order_and_inclusion (fs : FS) (m : JObj) (s : Summary)
    (entry : JObj) (item : JObj)
    (hc : compile_update_config fs = .ok (m, s))
    (hcat : pyStrip (pyStr (jgetD item "category" (.jstr ""))) = "")
    (hnc : ncEmpty (normalizeContents (jgetD item "contents" .jnull)) = true) :
    (∃ manifest ids latest anns,
      _read_json fs "manifest.json" = .ok manifest ∧
      validateAnnouncementIds manifest = .ok (ids, latest) ∧
      _load_announcements fs ids = .ok anns ∧
      jget m "release_notes" = some (.jarr
        (ids.filterMap (fun i => _build_release_note (activeOf anns i))))) ∧
    ((_build_release_note entry).isSome ↔
      (versionOf entry ≠ "" ∨ normalizedItemsOf entry ≠ [])) ∧
    normReleaseItem (.jobj item) = none := by
  obtain ⟨manifest, ids, latest, anns, donors, h0, h1, h2, h3, h4, hm, hs⟩ :=
    compile_ok_inv fs m s hc
  refine ⟨⟨manifest, ids, latest, anns, h1, h2, h3, ?_⟩, ?_, ?_⟩
  · rw [hm]
    exact jget_assembleMerged_release_notes _ _ _ _ _
  · unfold _build_release_note
    by_cases hv : versionOf entry = ""
    · by_cases hi : normalizedItemsOf entry = []
      · simp [hv, hi]
      · simp [hv, hi, List.isEmpty_iff]
    · simp [hv]
  · unfold normReleaseItem
    dsimp only
    rw [if_pos ⟨hcat, hnc⟩]

/-- C1 witness: in the example, `release_notes` holds exactly the in-order
note of announcement 1; announcement 2 (no version, no items) is excluded by
the builder; and the all-blank item is dropped. -/
theorem c1_release_notes_order_and_inclusion_witness :
    (∃ manifest ids latest anns,
      _read_json exFS "manifest.json" = .ok manifest ∧
      validateAnnouncementIds manifest = .ok (ids, latest) ∧
      _load_announcements exFS ids = .ok anns ∧
      jget exMerged "release_notes" = some (.jarr
        (ids.filterMap (fun i => _build_release_note (activeOf anns i))))) ∧
    ((_build_release_note exAnn2).isSome ↔
      (versionOf exAnn2 ≠ "" ∨ normalizedItemsOf exAnn2 ≠ [])) ∧
    normReleaseItem (.jobj [("category", .jstr "  "), ("contents", .jstr " ")]) =
      none :=
  c1_release_notes_order_and_inclusion exFS exMerged exSummary exAnn2
    [("category", .jstr "  "), ("contents", .jstr " ")] rfl rfl rfl

/-- C3: the merged document is the manifest with exactly the four internal
keys removed and exactly the three output keys added: every field outside
those seven keys is carried over unchanged (same order, same value), the four
internal keys are absent, and the three output keys are present. -/
theorem c3_merged_frame (fs : FS) (m : JObj) (s : Summary)
    (hc : compile_update_config fs = .ok (m, s)) :
    ∃ manifest,
      _read_json fs "manifest.json" = .ok manifest ∧
      m.filter (fun q => decide (q.1 ∉ internalKeys ++ outputKeys)) =
        manifest.filter (fun q => decide (q.1 ∉ internalKeys ++ outputKeys)) ∧
      jget m "announcement_ids" = none ∧
      jget m "latest_announcement_id" = none ∧
      jget m "donors_file" = none ∧
      jget m "announcement_tag_index" = none ∧
      (∃ a, jget m "announcement" = some a) ∧
      (∃ d, jget m "donors" = some (.jarr d)) ∧
      (∃ r, jget m "release_notes" = some (.jarr r)) := by
  obtain ⟨manifest, ids, latest, anns, donors, h0, h1, h2, h3, h4, hm, hs⟩ :=
    compile_ok_inv fs m s hc
  subst hm
  refine ⟨manifest, h1, ?_, ?_, ?_, ?_, ?_, ?_, ?_, ?_⟩
  · exact filter_assembleMerged manifest latest (activeOf anns latest) donors
      (releaseNotesOf ids anns) (fun k => decide (k ∉ internalKeys ++ outputKeys))
      (by decide) (by decide) (by decide) (by decide) (by decide) (by decide)
      (by decide)
  · exact jget_assembleMerged_internal _ _ _ _ _ _ (Or.inl rfl)
  · exact jget_assembleMerged_internal _ _ _ _ _ _ (Or.inr (Or.inl rfl))
  · exact jget_assembleMerged_internal _ _ _ _ _ _ (Or.inr (Or.inr (Or.inl rfl)))
  · exact jget_assembleMerged_internal _ _ _ _ _ _ (Or.inr (Or.inr (Or.inr rfl)))
  · exact ⟨_, jget_assembleMerged_announcement _ _ _ _ _⟩
  · exact ⟨_, jget_assembleMerged_donors _ _ _ _ _⟩
  · exact ⟨_, jget_assembleMerged_release_notes _ _ _ _ _⟩

/-- C3 witness: the frame property instantiated on the example compilation. -/
theorem c3_merged_frame_witness :
    ∃ manifest,
      _read_json exFS "manifest.json" = .ok manifest ∧
      exMerged.filter (fun q => decide (q.1 ∉ internalKeys ++ outputKeys)) =
        manifest.filter (fun q => decide (q.1 ∉ internalKeys ++ outputKeys)) ∧
      jget exMerged "announcement_ids" = none ∧
      jget exMerged "latest_announcement_id" = none ∧
      jget exMerged "donors_file" = none ∧
      jget exMerged "announcement_tag_index" = none ∧
      (∃ a, jget exMerged "announcement" = some a) ∧
      (∃ d, jget exMerged "donors" = some (.jarr d)) ∧
      (∃ r, jget exMerged "release_notes" = some (.jarr r)) :=
  c3_merged_frame exFS exMerged exSummary rfl

/-- C9: on any successful compilation, `announcement.id` in the merged
document is the manifest's `latest_announcement_id` after normalization, and
`donors` is exactly what donor loading produced — in particular the empty
list when the default-named donors file is absent. -/
theorem c9_round_trip (fs : FS) (m : JObj) (s : Summary)
    (hc : compile_update_config fs = .ok (m, s)) :
    ∃ manifest ids latest anns donors,
      _read_json fs "manifest.json" = .ok manifest ∧
      validateAnnouncementIds manifest = .ok (ids, latest) ∧
      _load_announcements fs ids = .ok anns ∧
      _normalize_id (jgetD manifest "latest_announcement_id" .jnull)
        "manifest.latest_announcement_id" = .ok latest ∧
      (∃ a, jget m "announcement" = some (.jobj a) ∧
        jget a "id" = some (.jstr latest)) ∧
      loadDonors fs manifest = .ok donors ∧
      jget m "donors" = some (.jarr donors) ∧
      (donorsFileOf manifest = "donors.json" →
        fsExists fs "donors.json" = false → donors = []) := by
  obtain ⟨manifest, ids, latest, anns, donors, h0, h1, h2, h3, h4, hm, hs⟩ :=
    compile_ok_inv fs m s hc
  obtain ⟨xs, _, _, _, _, hl, _⟩ := validate_ok_inv manifest ids latest h2
  subst hm
  refine ⟨manifest, ids, latest, anns, donors, h1, h2, h3, hl, ?_, h4, ?_, ?_⟩
  · exact ⟨_, jget_assembleMerged_announcement _ _ _ _ _, rfl⟩
  · exact jget_assembleMerged_donors _ _ _ _ _
  · intro hdf hnex
    unfold loadDonors at h4
    dsimp only at h4
    rw [hdf] at h4
    rw [if_neg (by decide)] at h4
    rw [hnex] at h4
    simp only [Bool.false_eq_true, if_false] at h4
    rw [if_pos trivial] at h4
    injection h4 with h'
    exact h'.symm

/-- C9 witness: on the example (default donors file absent), the merged
`announcement.id` is `"2"` and `donors` is `[]`. -/
theorem c9_round_trip_witness :
    ∃ manifest ids latest anns donors,
      _read_json exFS "manifest.json" = .ok manifest ∧
      validateAnnouncementIds manifest = .ok (ids, latest) ∧
      _load_announcements exFS ids = .ok anns ∧
      _normalize_id (jgetD manifest "latest_announcement_id" .jnull)
        "manifest.latest_announcement_id" = .ok latest ∧
      (∃ a, jget exMerged "announcement" = some (.jobj a) ∧
        jget a "id" = some (.jstr latest)) ∧
      loadDonors exFS manifest = .ok donors ∧
      jget exMerged "donors" = some (.jarr donors) ∧
      (donorsFileOf manifest = "donors.json" →
        fsExists exFS "donors.json" = false → donors = []) :=
  c9_round_trip exFS exMerged exSummary rfl

/-- C4 counterexample: a configured `donors_file` of `"  "` trims to the empty
string — which is not the literal default `"donors.json"` — and no such file
exists, yet compilation succeeds instead of failing. -/
theorem c4_donors_counterexample :
    _read_json exFS4 "manifest.json" = .ok exManifest4Obj ∧
    donorsFileOf exManifest4Obj ≠ "donors.json" ∧
    fsExists exFS4 (donorsFileOf exManifest4Obj) = false ∧
    ∃ r, compile_update_config exFS4 = .ok r := by
  exact ⟨rfl, by decide, rfl, ⟨_, rfl⟩⟩

/-- C4 (amended): donor loading in `compile_update_config`: if the resolved
donors filename is non-empty after trimming and the file exists, it is parsed
as a JSON array (a failing parse fails compilation); if the filename is the
literal default `"donors.json"` and the file is absent, the result is the
empty list with no error; if any other filename that is non-empty after
trimming is absent, compilation fails (an empty trimmed filename skips donor
loading entirely). -/
theorem c4_donors_loading (fs : FS) (manifest : JObj) (ids : List String)
    (latest : String) (anns : List (String × JObj))
    (h0 : fsExists fs "manifest.json" = true)
    (h1 : _read_json fs "manifest.json" = .ok manifest)
    (h2 : validateAnnouncementIds manifest = .ok (ids, latest))
    (h3 : _load_announcements fs ids = .ok anns) :
    (donorsFileOf manifest ≠ "" → fsExists fs (donorsFileOf manifest) = true →
      ∀ m s, compile_update_config fs = .ok (m, s) →
        ∃ d, _read_json_list fs (donorsFileOf manifest) = .ok d ∧
          jget m "donors" = some (.jarr d)) ∧
    (donorsFileOf manifest ≠ "" → fsExists fs (donorsFileOf manifest) = true →
      ∀ e, _read_json_list fs (donorsFileOf manifest) = .error e →
        compile_update_config fs = .error e) ∧
    (donorsFileOf manifest = "donors.json" →
      fsExists fs (donorsFileOf manifest) = false →
      ∃ m s, compile_update_config fs = .ok (m, s) ∧
        jget m "donors" = some (.jarr [])) ∧
    (donorsFileOf manifest ≠ "" → donorsFileOf manifest ≠ "donors.json" →
      fsExists fs (donorsFileOf manifest) = false →
      compile_update_config fs =
        .error ("manifest.donors_file not found: " ++ donorsFileOf manifest)) := by
  refine ⟨?_, ?_, ?_, ?_⟩
  · intro hne hex m s hc
    obtain ⟨manifest2, ids2, latest2, anns2, donors, g0, g1, g2, g3, g4, hm, hs⟩ :=
      compile_ok_inv fs m s hc
    rw [h1] at g1
    injection g1 with hman
    subst hman
    unfold loadDonors at g4
    dsimp only at g4
    rw [if_neg hne, hex, if_pos rfl] at g4
    subst hm
    exact ⟨donors, g4, jget_assembleMerged_donors _ _ _ _ _⟩
  · intro hne hex e her
    have h4 : loadDonors fs manifest = .error e := by
      unfold loadDonors
      dsimp only
      rw [if_neg hne, hex, if_pos rfl]
      exact her
    exact compile_error_of_donors fs manifest ids latest anns e h0 h1 h2 h3 h4
  · intro hdf hnex
    rw [hdf] at hnex
    have h4 : loadDonors fs manifest = .ok [] := by
      unfold loadDonors
      dsimp only
      rw [hdf]
      rw [if_neg (by decide : ¬("donors.json" = ""))]
      rw [hnex]
      rw [if_neg Bool.false_ne_true]
      rw [if_pos rfl]
    exact ⟨_, _, compile_eq_of_stages fs manifest ids latest anns [] h0 h1 h2 h3 h4,
      jget_assembleMerged_donors _ _ _ _ _⟩
  · intro hne hnd hnex
    have h4 : loadDonors fs manifest =
        .error ("manifest.donors_file not found: " ++ donorsFileOf manifest) := by
      unfold loadDonors
      dsimp only
      rw [if_neg hne, hnex]
      rw [if_neg Bool.false_ne_true]
      rw [if_neg hnd]
    exact compile_error_of_donors fs manifest ids latest anns _ h0 h1 h2 h3 h4

/-- C4 witness for the amended claim: in the example the default-named donors
file is absent and compilation succeeds with `donors = []`; and a tree whose
manifest configures `donors_file: "custom.json"` with no such file fails. -/
theorem c4_donors_loading_witness :
    (∃ m s, compile_update_config exFS = .ok (m, s) ∧
      jget m "donors" = some (.jarr [])) ∧
    compile_update_config
      ⟨[("manifest.json", .jobj [("donors_file", .jstr "custom.json"),
        ("announcement_ids", .jarr [.jint 1]),
        ("latest_announcement_id", .jint 1)]),
       ("announcements/1.json", .jobj [("id", .jint 1)])]⟩ =
      .error ("manifest.donors_file not found: " ++ "custom.json") := by
  constructor
  · exact (c4_donors_loading exFS exManifestObj ["1", "2"] "2" exAnns
      rfl rfl rfl rfl).2.2.1 rfl rfl
  · exact (c4_donors_loading
      ⟨[("manifest.json", .jobj [("donors_file", .jstr "custom.json"),
        ("announcement_ids", .jarr [.jint 1]),
        ("latest_announcement_id", .jint 1)]),
       ("announcements/1.json", .jobj [("id", .jint 1)])]⟩
      [("donors_file", .jstr "custom.json"),
        ("announcement_ids", .jarr [.jint 1]),
        ("latest_announcement_id", .jint 1)]
      ["1"] "1" [("1", [("id", .jint 1)])]
      rfl rfl rfl rfl).2.2.2 (by decide) (by decide) rfl

/-- C5: with `version_info` and the platform entry both objects, a platform
whose URL override is non-empty after trimming but whose explicit version
override trims to empty gets its `latest_version` set to the trimmed tag
version (itself non-empty after trimming); when the explicit version override
is non-empty it takes precedence and the tag version is not used for that
platform. -/
theorem c5_overrides_tag_default (merged vi : JObj)
    (tag au iu wu av iv wv : String)
    (hvi : jget merged "version_info" = some (.jobj vi))
    (htag : pyStrip tag ≠ "") :
    (∀ pk, jget vi "android" = some (.jobj pk) → pyStrip au ≠ "" →
      (pyStrip av = "" →
        platformField (_apply_overrides merged tag au iu wu av iv wv)
          "android" "latest_version" = some (.jstr (pyStrip tag))) ∧
      (pyStrip av ≠ "" →
        platformField (_apply_overrides merged tag au iu wu av iv wv)
          "android" "latest_version" = some (.jstr (pyStrip av)))) ∧
    (∀ pk, jget vi "ios" = some (.jobj pk) → pyStrip iu ≠ "" →
      (pyStrip iv = "" →
        platformField (_apply_overrides merged tag au iu wu av iv wv)
          "ios" "latest_version" = some (.jstr (pyStrip tag))) ∧
      (pyStrip iv ≠ "" →
        platformField (_apply_overrides merged tag au iu wu av iv wv)
          "ios" "latest_version" = some (.jstr (pyStrip iv)))) ∧
    (∀ pk, jget vi "windows" = some (.jobj pk) → pyStrip wu ≠ "" →
      (pyStrip wv = "" →
        platformField (_apply_overrides merged tag au iu wu av iv wv)
          "windows" "latest_version" = some (.jstr (pyStrip tag))) ∧
      (pyStrip wv ≠ "" →
        platformField (_apply_overrides merged tag au iu wu av iv wv)
          "windows" "latest_version" = some (.jstr (pyStrip wv)))) := by
  have happ : _apply_overrides merged tag au iu wu av iv wv =
      insertD merged "version_info"
        (.jobj (overridesVi vi tag au iu wu av iv wv)) := by
    unfold _apply_overrides
    rw [hvi]
  refine ⟨?_, ?_, ?_⟩
  · intro pk hpk hau
    have hova := jget_overridesVi_android vi pk tag au iu wu av iv wv hpk
    constructor
    · intro hav
      rw [happ]
      unfold platformField
      rw [jget_insertD_self]
      dsimp only
      rw [hova]
      dsimp only
      rw [if_pos ⟨htag, hau, hav⟩]
      exact jget_insertD_self _ _ _
    · intro hav
      rw [happ]
      unfold platformField
      rw [jget_insertD_self]
      dsimp only
      rw [hova]
      dsimp only
      rw [if_neg (fun hc => hav hc.2.2)]
      unfold setNonempty
      dsimp only
      rw [if_pos hav]
      exact jget_insertD_self _ _ _
  · intro pk hpk hiu
    have hovi := jget_overridesVi_ios vi pk tag au iu wu av iv wv hpk
    constructor
    · intro hiv
      rw [happ]
      unfold platformField
      rw [jget_insertD_self]
      dsimp only
      rw [hovi]
      dsimp only
      rw [if_pos ⟨htag, hiu, hiv⟩]
      exact jget_insertD_self _ _ _
    · intro hiv
      rw [happ]
      unfold platformField
      rw [jget_insertD_self]
      dsimp only
      rw [hovi]
      dsimp only
      rw [if_neg (fun hc => hiv hc.2.2)]
      unfold setNonempty
      dsimp only
      rw [if_pos hiv]
      exact jget_insertD_self _ _ _
  · intro pk hpk hwu
    have hovw := jget_overridesVi_windows vi pk tag au iu wu av iv wv hpk
    constructor
    · intro hwv
      rw [happ]
      unfold platformField
      rw [jget_insertD_self]
      dsimp only
      rw [hovw]
      dsimp only
      rw [if_pos ⟨htag, hwu, hwv⟩]
      exact jget_insertD_self _ _ _
    · intro hwv
      rw [happ]
      unfold platformField
      rw [jget_insertD_self]
      dsimp only
      rw [hovw]
      dsimp only
      rw [if_neg (fun hc => hwv hc.2.2)]
      unfold setNonempty
      dsimp only
      rw [if_pos hwv]
      exact jget_insertD_self _ _ _

/-- A merged document with all three platforms present, for exercising the
override rules. -/
def exC5Vi : JObj :=
  [("android", .jobj [("url", .jstr "https://old")]),
   ("ios", .jobj []), ("windows", .jobj [])]

/-- The merged document wrapping `exC5Vi`. -/
def exC5Merged : JObj := [("version_info", .jobj exC5Vi)]

/-- C5 witness: with `android_url = "https://x"`, no `android_version`, and
`tag_version = "1.2.3"`, android's `latest_version` becomes `"1.2.3"`; with
`android_version = "9.9.9"` also given, it becomes `"9.9.9"` instead. -/
theorem c5_overrides_tag_default_witness :
    platformField (_apply_overrides exC5Merged "1.2.3" "https://x" "" "" "" "" "")
      "android" "latest_version" = some (.jstr "1.2.3") ∧
    platformField (_apply_overrides exC5Merged "1.2.3" "https://x" "" "" "9.9.9" "" "")
      "android" "latest_version" = some (.jstr "9.9.9") := by
  constructor
  · exact ((c5_overrides_tag_default exC5Merged exC5Vi "1.2.3" "https://x" "" ""
      "" "" "" rfl (by decide)).1 [("url", .jstr "https://old")] rfl
      (by decide)).1 rfl
  · exact ((c5_overrides_tag_default exC5Merged exC5Vi "1.2.3" "https://x" "" ""
      "9.9.9" "" "" rfl (by decide)).1 [("url", .jstr "https://old")] rfl
      (by decide)).2 (by decide)
